import Mathlib

/-!
Shallow embedding of the reconciliation watchers of the `plugin-manager`
repository: the ARP neighbor-table synchronizer (`arpsync/watcher.go`), the
conntrack DNAT synchronizer (`conntracksync`), and the veth garbage collector
(`vethsync/utils/utils.go`), together with the Go standard-library and
netlink-facing helpers they use.  Pure Go functions become Lean functions;
kernel mutations become an explicit list of issued operations; Go runtime
panics become `Except GoPanic`.
-/

namespace PluginManager

/-- Decimal digit character, `Char.ofNat (48 + n)` for `n < 10`. -/
def digitChar (n : Nat) : Char := Char.ofNat (48 + n)

/-- Auxiliary digit accumulator for `natToStr`; the first argument is fuel,
always called with fuel at least the number of decimal digits. -/
def natDigitsAux : Nat → Nat → List Char
  | 0, _ => []
  | fuel + 1, n => if n < 10 then [digitChar n] else natDigitsAux fuel (n / 10) ++ [digitChar (n % 10)]

/-- Decimal rendering of a natural number, as Go's `strconv.Itoa` renders
nonnegative ints. -/
def natToStr (n : Nat) : String := String.mk (natDigitsAux (n + 1) n)

/-- Go's `strconv.Itoa`. -/
def intToStr : Int → String
  | Int.ofNat n => natToStr n
  | Int.negSucc n => "-" ++ natToStr (n + 1)

/-- Auxiliary splitter over the character list, accumulating the current
field in reverse. -/
def goSplitAux (sep : Char) : List Char → List Char → List String
  | [], acc => [String.mk acc.reverse]
  | c :: rest, acc =>
    if c = sep then String.mk acc.reverse :: goSplitAux sep rest []
    else goSplitAux sep rest (c :: acc)

/-- Go's `strings.Split` for a one-character separator (the only form the
sources use: separators ":" and "/").  `Split("", sep) = [""]` and trailing
separators yield empty fields, as in Go. -/
def goSplit (sep : Char) (s : String) : List String := goSplitAux sep s.toList []

/-- Go's `strings.HasPrefix`. -/
def strStartsWith (s pre : String) : Bool := pre.toList.isPrefixOf s.toList

/-- Membership test in a list of strings, modelling a Go `map[string]bool`
set query. -/
def containsStr (xs : List String) (x : String) : Bool := xs.any (fun y => y == x)

/-- Membership test in a list of ints, modelling a Go `map[int]...` key query. -/
def containsInt (xs : List Int) (x : Int) : Bool := xs.any (fun y => y == x)

/-- Insertion into a Go `map[string]bool` used as a set. -/
def insertSet (xs : List String) (x : String) : List String :=
  if containsStr xs x then xs else xs ++ [x]

/-- ASCII lower-casing of a character, as Go's `strings.ToLower` acts on the
ASCII range (MAC strings are ASCII). -/
def charToLower (c : Char) : Char :=
  if 'A' ≤ c ∧ c ≤ 'Z' then Char.ofNat (c.toNat + 32) else c

/-- ASCII lower-casing of a string. -/
def strToLower (s : String) : String := String.mk (s.toList.map charToLower)

/-- Hexadecimal digit test. -/
def isHexDigitCh (c : Char) : Bool :=
  decide (('0' ≤ c ∧ c ≤ '9') ∨ ('a' ≤ c ∧ c ≤ 'f') ∨ ('A' ≤ c ∧ c ≤ 'F'))

/-- A two-hex-digit MAC octet group. -/
def isMacGroup (s : String) : Bool :=
  s.toList.length == 2 && s.toList.all isHexDigitCh

/-- Models the round trip `net.ParseMAC` followed by
`net.HardwareAddr.String()` for the six-octet colon-separated form used by
the repository: a valid MAC string parses and renders back in canonical
(lower-case) form; anything else fails to parse. -/
def parseMAC (s : String) : Option String :=
  let groups := goSplit ':' s
  if groups.length == 6 && groups.all isMacGroup then some (strToLower s) else none

/-- Digits-to-value accumulator. -/
def digitsToNat (ds : List Char) : Nat := ds.foldl (fun a d => a * 10 + (d.toNat - 48)) 0

/-- Go's `strconv.Atoi`: an optional sign followed by at least one decimal
digit and nothing else; out-of-int64-range values also report an error
(Go returns `ErrRange`, which the callers treat like any other error). -/
def goAtoi (s : String) : Option Int :=
  match s.toList with
  | [] => none
  | c :: rest =>
    let digits := if c = '-' ∨ c = '+' then rest else c :: rest
    if digits.isEmpty then none
    else if digits.all (fun d => decide ('0' ≤ d ∧ d ≤ '9')) then
      let n : Int := Int.ofNat (digitsToNat digits)
      let v : Int := if c = '-' then -n else n
      if v < -(2 ^ 63) ∨ 2 ^ 63 - 1 < v then none else some v
    else none

/-- An IPv4 address as its 32-bit value. -/
abbrev IPv4 := Nat

/-- Dotted-quad rendering of an IPv4 value, as Go's `net.IP.String()`. -/
def ipToString (ip : IPv4) : String :=
  natToStr (ip / 2 ^ 24 % 256) ++ "." ++ natToStr (ip / 2 ^ 16 % 256) ++ "."
    ++ natToStr (ip / 2 ^ 8 % 256) ++ "." ++ natToStr (ip % 256)

/-- An IPv4 network as produced by `net.ParseCIDR`: base address and mask
length. -/
structure Subnet where
  base : Nat
  maskBits : Nat
deriving DecidableEq, Repr

/-- Go's `net.IPNet.Contains` for IPv4. -/
def subnetContains (s : Subnet) (ip : IPv4) : Bool :=
  ip / 2 ^ (32 - s.maskBits) == s.base / 2 ^ (32 - s.maskBits)

/-- The fields of `metadata.Container` the watchers read. -/
structure Container where
  hostUUID : String
  networkUUID : String
  primaryIp : String
  primaryMacAddress : String
  ports : List String
deriving DecidableEq, Repr

/-- Association-list image of a Go `map[string]*metadata.Container`:
insertion appends, lookup takes the latest binding (last writer wins). -/
def mapInsert (m : List (String × Container)) (k : String) (v : Container) :
    List (String × Container) := m ++ [(k, v)]

/-- Lookup of the latest binding for a key. -/
def lookupMap (m : List (String × Container)) (k : String) : Option Container :=
  (m.reverse.find? (fun kv => kv.1 == k)).map (fun kv => kv.2)

/-- The fields of a netlink link (`netlink.Link.Attrs()`) the watchers read. -/
structure Link where
  index : Int
  name : String
  masterIndex : Int
  parentIndex : Int
deriving DecidableEq, Repr

/-- A netlink neighbor entry (`netlink.Neigh`): the fields `arpsync` reads
and writes.  `state` is the NUD state (`netlink.Neigh.State`); `typ` is the
distinct `netlink.Neigh.Type` field (the netlink `ndm_type`). -/
structure NeighEntry where
  linkIndex : Int
  ip : IPv4
  hardwareAddr : String
  state : Int
  typ : Int
deriving DecidableEq, Repr

/-- `netlink.NUD_REACHABLE` (0x02), a neighbor-cache state constant. -/
def nudReachable : Int := 2

/-- `netlink.NUD_STALE` (0x04), a neighbor-cache state constant. -/
def nudStale : Int := 4

/-- A conntrack DNAT entry (`conntrack.CTEntry`): the fields the
conntracksync watcher reads. -/
structure CTEntry where
  originalDestinationIP : String
  originalDestinationPort : String
  protocol : String
  replySourceIP : String
deriving DecidableEq, Repr

/-- A kernel mutation issued by a watcher through netlink/conntrack.
`neighborDel` never occurs in any mutation list produced by the embedded
code (the deletion in `arpsync.doSync` is commented out in the source); it
is included so that its absence is expressible. -/
inductive KernelMutation where
  | neighborSet (e : NeighEntry)
  | neighborDel (e : NeighEntry)
  | conntrackDelete (e : CTEntry)
  | linkDelete (l : Link)
deriving DecidableEq, Repr

/-- A Go runtime panic reachable in the embedded code. -/
inductive GoPanic where
  | indexOutOfRange
deriving DecidableEq, Repr

/-- An untyped JSON-like value, modelling Go's `interface{}` as it occurs in
`Network.Metadata`: a string, an object (`map[string]interface{}`, as an
association list), or anything else (on which the sources' type assertions
fail). -/
inductive JVal where
  | str (s : String)
  | obj (fields : List (String × JVal))
  | other

/-- Lookup in a JSON object; Go map access returns `nil` (here `none`) for a
missing key, on which a type assertion fails. -/
def jLookup (fields : List (String × JVal)) (k : String) : Option JVal :=
  (fields.find? (fun kv => kv.1 == k)).map (fun kv => kv.2)

/-- The fields of `metadata.Network` the watchers read.  `metadata` models
the untyped `Metadata map[string]interface{}` JSON mapping. -/
structure Network where
  uuid : String
  metadata : List (String × JVal)

/-- The type assertion `n.Metadata["cniConfig"].(map[string]interface{})`. -/
def networkCniConfig (n : Network) : Option (List (String × JVal)) :=
  match jLookup n.metadata "cniConfig" with
  | some (JVal.obj fs) => some fs
  | _ => none

/-- `arpsync.buildContainersMap`: the ip-to-container index over containers
with a non-empty `PrimaryIp` and the local network's UUID; a Go map write
per matching container, later writers overwriting earlier ones. -/
def buildContainersMap (containers : List Container) (network : Network) :
    List (String × Container) :=
  containers.foldl
    (fun m c =>
      if c.primaryIp ≠ "" ∧ c.networkUUID = network.uuid then mapInsert m c.primaryIp c else m)
    []

/-- The inputs of the per-entry loop of `arpsync.doSync` (source lines
197-244): the self host's UUID, the network-driver MAC gathered from the
services, the local bridge's link index, the parsed bridge subnet, and the
ip-to-container map. -/
structure ArpCtx where
  hostUUID : String
  driverMac : String
  bridgeIndex : Int
  subnet : Subnet
  cmap : List (String × Container)

/-- The body of the `for _, aEntry := range entries` loop of
`arpsync.doSync`: skip entries outside the bridge/subnet filter; look the IP
up in the container map; on a MAC mismatch issue `netlink.NeighSet` on a
copy of the entry with the parsed expected MAC and with the `Type` field set
to `NUD_REACHABLE` (the source assigns `newEntry.Type`, not
`newEntry.State`); a MAC parse failure or an equal MAC issues nothing. -/
def arpProcessEntry (ctx : ArpCtx) (e : NeighEntry) : Option KernelMutation :=
  if e.linkIndex = ctx.bridgeIndex ∧ subnetContains ctx.subnet e.ip then
    match lookupMap ctx.cmap (ipToString e.ip) with
    | some c =>
      if c.hostUUID = ctx.hostUUID then
        if c.primaryMacAddress ≠ e.hardwareAddr then
          match parseMAC c.primaryMacAddress with
          | some hw => some (KernelMutation.neighborSet
              { e with hardwareAddr := hw, typ := nudReachable })
          | none => none
        else none
      else
        if e.hardwareAddr ≠ ctx.driverMac then
          match parseMAC ctx.driverMac with
          | some hw => some (KernelMutation.neighborSet
              { e with hardwareAddr := hw, typ := nudReachable })
          | none => none
        else none
    | none => none
  else none

/-- The full entry loop of `arpsync.doSync`: the kernel mutations issued
over one snapshot of the ARP table. -/
def arpDoSyncEntries (ctx : ArpCtx) (entries : List NeighEntry) : List KernelMutation :=
  entries.filterMap (arpProcessEntry ctx)

/-- Whether a mutation is a neighbor upsert for the `(LinkIndex, IP)` key of
the given table entry. -/
def neighKeyMatches (e : NeighEntry) (m : KernelMutation) : Bool :=
  match m with
  | KernelMutation.neighborSet n => n.linkIndex == e.linkIndex && n.ip == e.ip
  | _ => false

/-- The neighbor entry after the issued upserts: replaced by the upserted
entry when one targets its key, otherwise unchanged. -/
def updNeighEntry (muts : List KernelMutation) (e : NeighEntry) : NeighEntry :=
  match muts.find? (neighKeyMatches e) with
  | some (KernelMutation.neighborSet n) => n
  | _ => e

/-- The effect of the issued `netlink.NeighSet` upserts on the neighbor
table: an entry with the same `(LinkIndex, IP)` key as an issued upsert is
replaced by the upserted entry. -/
def applyNeighSets (muts : List KernelMutation) (table : List NeighEntry) : List NeighEntry :=
  table.map (updNeighEntry muts)

/-- Every expected MAC string the ARP context can select is in canonical
form: it parses (`net.ParseMAC`) and renders back to itself. -/
def macsCanonical (ctx : ArpCtx) : Prop :=
  parseMAC ctx.driverMac = some ctx.driverMac ∧
    ∀ kv ∈ ctx.cmap, parseMAC kv.2.primaryMacAddress = some kv.2.primaryMacAddress

/-- The specific key `{OriginalDestinationIP}:{OriginalDestinationPort}/{Protocol}`
computed by `conntracksync.doSync`. -/
def ctSpecificKey (e : CTEntry) : String :=
  e.originalDestinationIP ++ ":" ++ e.originalDestinationPort ++ "/" ++ e.protocol

/-- The generic key `0.0.0.0:{OriginalDestinationPort}/{Protocol}` computed
by `conntracksync.doSync` when the specific key misses. -/
def ctGenericKey (e : CTEntry) : String :=
  "0.0.0.0:" ++ e.originalDestinationPort ++ "/" ++ e.protocol

/-- The body of the `for _, ctEntry := range ctEntries` loop of
`conntracksync.doSync`: look up the specific key, then on a miss the generic
key; skip on a double miss; on a hit, call `conntrack.CTEntryDelete` exactly
when `ReplySourceIP` differs from the mapped container's `PrimaryIp`. -/
def ctProcessEntry (cmap : List (String × Container)) (e : CTEntry) : Option KernelMutation :=
  match lookupMap cmap (ctSpecificKey e) with
  | some c =>
    if e.replySourceIP ≠ c.primaryIp then some (KernelMutation.conntrackDelete e) else none
  | none =>
    match lookupMap cmap (ctGenericKey e) with
    | some c =>
      if e.replySourceIP ≠ c.primaryIp then some (KernelMutation.conntrackDelete e) else none
    | none => none

/-- The full entry loop of `conntracksync.doSync`: the conntrack deletions
issued over one snapshot of the DNAT table. -/
def ctDoSync (cmap : List (String × Container)) (entries : List CTEntry) :
    List KernelMutation :=
  entries.filterMap (ctProcessEntry cmap)

/-- The key computed for one published-port string inside
`conntracksync.buildContainersMaps`: split on ":"; a port with other than
three fields is skipped; otherwise Go indexes `strings.Split(third, "/")[1]`,
which panics (index out of range) when the third field holds no "/". -/
def buildPortKey (p : String) : Except GoPanic (Option String) :=
  match goSplit ':' p with
  | [hostIP, hostPort, lastPart] =>
    match (goSplit '/' lastPart).get? 1 with
    | some protocol => Except.ok (some (hostIP ++ ":" ++ hostPort ++ "/" ++ protocol))
    | none => Except.error GoPanic.indexOutOfRange
  | _ => Except.ok none

/-- The inner `for _, aPort := range aContainer.Ports` loop of
`conntracksync.buildContainersMaps`. -/
def addContainerPorts (c : Container) (m : List (String × Container)) :
    List String → Except GoPanic (List (String × Container))
  | [] => Except.ok m
  | p :: rest =>
    match buildPortKey p with
    | Except.error pan => Except.error pan
    | Except.ok none => addContainerPorts c m rest
    | Except.ok (some k) => addContainerPorts c (mapInsert m k c) rest

/-- The outer container loop of `conntracksync.buildContainersMaps`. -/
def buildContainersMapsAux (hostUUID : String) (m : List (String × Container)) :
    List Container → Except GoPanic (List (String × Container))
  | [] => Except.ok m
  | c :: rest =>
    if c.hostUUID = hostUUID ∧ c.ports ≠ [] then
      match addContainerPorts c m c.ports with
      | Except.error pan => Except.error pan
      | Except.ok m2 => buildContainersMapsAux hostUUID m2 rest
    else buildContainersMapsAux hostUUID m rest

/-- `conntracksync.buildContainersMaps`, over the self host's UUID and the
metadata container snapshot (the source fetches both from metadata). -/
def buildContainersMaps (hostUUID : String) (containers : List Container) :
    Except GoPanic (List (String × Container)) :=
  buildContainersMapsAux hostUUID [] containers

/-- `conntracksync.doSync` end to end over one metadata and conntrack
snapshot: build the published-port map (which may panic on a malformed port
string), then run the entry loop. -/
def conntracksyncDoSync (hostUUID : String) (containers : List Container)
    (ctEntries : List CTEntry) : Except GoPanic (List KernelMutation) :=
  match buildContainersMaps hostUUID containers with
  | Except.error pan => Except.error pan
  | Except.ok m => Except.ok (ctDoSync m ctEntries)

/-- The effect of the issued conntrack deletions on the DNAT table. -/
def applyCtDeletes (muts : List KernelMutation) (entries : List CTEntry) : List CTEntry :=
  entries.filter (fun e => decide (KernelMutation.conntrackDelete e ∉ muts))

/-- `arpsync.DefaultSyncInterval` (seconds). -/
def arpsyncDefaultSyncInterval : Int := 120

/-- `conntracksync.DefaultSyncInterval` (seconds). -/
def conntracksyncDefaultSyncInterval : Int := 120

/-- The sync interval (in seconds) selected by `arpsync.Watch`: start from
the default and overwrite with `strconv.Atoi`'s value when it parses. -/
def arpsyncWatchIntervalSeconds (syncIntervalStr : String) : Int :=
  match goAtoi syncIntervalStr with
  | some i => i
  | none => arpsyncDefaultSyncInterval

/-- The sync interval (in seconds) selected by `conntracksync.Watch`. -/
def conntracksyncWatchIntervalSeconds (syncIntervalStr : String) : Int :=
  match goAtoi syncIntervalStr with
  | some i => i
  | none => conntracksyncDefaultSyncInterval

/-- Modelled from the spec: `vethsync.Watch` is not under `src/` (only the
`vethsync/utils` helpers are).  Per the spec it parses the interval string
the same way and falls back to `vethsync.DefaultSyncInterval`, whose numeric
value the spec does not fix; the default is therefore a parameter. -/
def vethsyncWatchIntervalSeconds (dflt : Int) (syncIntervalStr : String) : Int :=
  match goAtoi syncIntervalStr with
  | some i => i
  | none => dflt

/-- One step result of a watcher's `doSync` as observed by its `syncLoop`:
either a normal return carrying an optional Go error value, or a panic. -/
abbrev StepResult := Except GoPanic (Option String)

/-- The `syncLoop` of `arpsync` and `conntracksync` (and, per the spec, of
`vethsync`), run over a finite list of successive step results: a returned
error is only logged and the loop continues; the loop body contains no
`recover`, so a panic raised inside a step propagates out of the goroutine
(terminating the process) and later ticks never run.  Returns the number of
completed ticks, or the escaped panic. -/
def syncLoopRun : List StepResult → Except GoPanic Nat
  | [] => Except.ok 0
  | r :: rest =>
    match r with
    | Except.error pan => Except.error pan
    | Except.ok _ =>
      match syncLoopRun rest with
      | Except.error pan => Except.error pan
      | Except.ok n => Except.ok (n + 1)

/-- One iteration of the `for _, config := range cniConf` loop of
`utils.getBridgeInfoFromCNIConfig`, over the state `(bridge, lastErr)`.  A
value that is not an object sets `lastErr` and leaves `bridge` alone; an
object without a string `"bridge"` field assigns the zero value to the outer
`bridge` variable (`bridge, ok = props["bridge"].(string)`) and sets
`lastErr`; an object with a string `"bridge"` field overwrites `bridge` and
leaves `lastErr` alone.  No `"type"` field is consulted. -/
def gbStep (acc : String × Bool) (config : JVal) : String × Bool :=
  match config with
  | JVal.obj props =>
    match jLookup props "bridge" with
    | some (JVal.str b) => (b, acc.2)
    | _ => ("", true)
  | _ => (acc.1, true)

/-- `utils.getBridgeInfoFromCNIConfig`: fold the loop body over the CNI
config entries (Go map iteration order taken as the association-list order)
and return the final `(bridge, lastErr != nil)` pair. -/
def getBridgeInfoFromCNIConfig (cniConf : List (String × JVal)) : String × Bool :=
  cniConf.foldl (fun acc kv => gbStep acc kv.2) ("", false)

/-- The `localBridges` set built inside `utils.GetHostViewVethMap`: for each
local network whose metadata has a `cniConfig` object, take the bridge
returned by `getBridgeInfoFromCNIConfig` unless it reported an error.
The local-network list itself comes from `network.LocalNetworks`, which is
not under `src/`; it is taken here as an input. -/
def lbStep (acc : List String) (n : Network) : List String :=
  match networkCniConfig n with
  | none => acc
  | some cniConf =>
    let r := getBridgeInfoFromCNIConfig cniConf
    if r.2 then acc else insertSet acc r.1

/-- See `lbStep` just above: fold of the per-network bridge extraction. -/
def localBridgeNames (networks : List Network) : List String :=
  networks.foldl lbStep []

/-- `utils.GetHostViewVethMap`: resolve the local bridge names against the
link list; fail when no bridge link resolves; otherwise record every link
whose name starts with the veth prefix and whose `MasterIndex` is a local
bridge's index, keyed by `strconv.Itoa` of its index. -/
def GetHostViewVethMap (vethPfx : String) (networks : List Network)
    (alllinks : List Link) : Except String (List (String × Link)) :=
  let localBridges := localBridgeNames networks
  let bridgeIdxs := alllinks.filterMap
    (fun l => if containsStr localBridges l.name then some l.index else none)
  if bridgeIdxs.isEmpty then Except.error "couldn't find any local bridge link"
  else Except.ok (alllinks.filterMap (fun l =>
    if strStartsWith l.name vethPfx && containsInt bridgeIdxs l.masterIndex then
      some (intToStr l.index, l)
    else none))

/-- A Docker container as seen by the veth watcher: its network mode and,
when entering its network namespace succeeds, the links visible inside
(`none` models an `EnterNS` failure, on which the container is skipped). -/
structure DockerContainer where
  id : String
  networkMode : String
  nsLinks : Option (List Link)

/-- One iteration of the container loop of
`utils.GetContainersViewVethMapByEnteringNS`: skip host-networked
containers; enter the namespace and read `eth0`'s `ParentIndex`; a namespace
or `LinkByName` failure skips the container. -/
def cviewStep (acc : List String) (c : DockerContainer) : List String :=
  if c.networkMode = "host" then acc
  else
    match c.nsLinks with
    | none => acc
    | some links =>
      match links.find? (fun l => l.name == "eth0") with
      | none => acc
      | some eth0 => insertSet acc (intToStr eth0.parentIndex)

/-- `utils.GetContainersViewVethMapByEnteringNS`: the set of decimal
`ParentIndex` strings of the `eth0` links of live non-host-networked
containers whose namespace could be entered. -/
def GetContainersViewVethMapByEnteringNS (dcs : List DockerContainer) : List String :=
  dcs.foldl cviewStep []

/-- `utils.GetDanglingVeths`: the host-view entries whose key is absent from
the container view. -/
def GetDanglingVeths (hostVethMap : List (String × Link)) (containerVethMap : List String) :
    List (String × Link) :=
  hostVethMap.filter (fun kv => !(containsStr containerVethMap kv.1))

/-- `utils.CleanUpDanglingVeths`: a `netlink.LinkDel` per dangling entry
(per-link failures are logged and skipped; the calls themselves are the
mutations). -/
def CleanUpDanglingVeths (dangling : List (String × Link)) : List KernelMutation :=
  dangling.map (fun kv => KernelMutation.linkDelete kv.2)

/-- Modelled from the spec: the vethsync watcher's reconciliation step
(`vethsync.doSync`, not under `src/`) composes `host_view`,
`container_view`, `diff` and the cleanup (spec section 4.8): `host =
GetHostViewVethMap(prefix, mc)`, `container` the container view,
`dangling = GetDanglingVeths(host, container)`, then
`CleanUpDanglingVeths(dangling)`; a failing host view aborts the step with
no mutation. -/
def vethDoSync (vethPfx : String) (networks : List Network) (alllinks : List Link)
    (containerView : List String) : List KernelMutation :=
  match GetHostViewVethMap vethPfx networks alllinks with
  | Except.error _ => []
  | Except.ok hostMap => CleanUpDanglingVeths (GetDanglingVeths hostMap containerView)

/-- The effect of the issued `netlink.LinkDel` calls on the link list. -/
def applyLinkDeletes (muts : List KernelMutation) (links : List Link) : List Link :=
  links.filter (fun l => decide (KernelMutation.linkDelete l ∉ muts))

/-- The success condition of one `getBridgeInfoFromCNIConfig` loop
iteration: the entry is an object carrying a string `"bridge"` field. -/
def wellFormedCniEntry (kv : String × JVal) : Prop :=
  ∃ props b, kv.2 = JVal.obj props ∧ jLookup props "bridge" = some (JVal.str b)

/-- Whether a step result is a normal return (possibly carrying a Go error
value) rather than a panic. -/
def stepReturned (r : StepResult) : Bool :=
  match r with
  | Except.ok _ => true
  | Except.error _ => false

/-! ## General lemmas about the helpers -/

theorem containsStr_iff {xs : List String} {x : String} :
    containsStr xs x = true ↔ x ∈ xs := by
  simp [containsStr, List.any_eq_true, beq_iff_eq]

theorem containsInt_iff {xs : List Int} {x : Int} :
    containsInt xs x = true ↔ x ∈ xs := by
  simp [containsInt, List.any_eq_true, beq_iff_eq]

theorem lookupMap_some_mem {m : List (String × Container)} {k : String} {c : Container}
    (h : lookupMap m k = some c) : ∃ k0, (k0, c) ∈ m := by
  unfold lookupMap at h
  cases hf : m.reverse.find? (fun kv => kv.1 == k) with
  | none => rw [hf] at h; simp at h
  | some kv =>
    rw [hf] at h
    simp only [Option.map_some', Option.some.injEq] at h
    have hmem := List.mem_of_find?_eq_some hf
    rw [List.mem_reverse] at hmem
    exact ⟨kv.1, by rw [← h]; exact (Prod.mk.eta ▸ hmem)⟩

theorem containsStr_insertSet_self (xs : List String) (x : String) :
    containsStr (insertSet xs x) x = true := by
  unfold insertSet
  split
  · assumption
  · rw [containsStr_iff]; exact List.mem_append_right xs (List.mem_singleton_self x)

theorem containsStr_insertSet_of {xs : List String} {y : String} (x : String)
    (h : containsStr xs y = true) : containsStr (insertSet xs x) y = true := by
  unfold insertSet
  split
  · assumption
  · rw [containsStr_iff] at h ⊢; exact List.mem_append_left _ h

theorem cviewStep_mono (c : DockerContainer) {acc : List String} {y : String}
    (h : containsStr acc y = true) : containsStr (cviewStep acc c) y = true := by
  unfold cviewStep
  split
  · exact h
  · split
    · exact h
    · split
      · exact h
      · exact containsStr_insertSet_of _ h

theorem cview_foldl_mono (dcs : List DockerContainer) {acc : List String} {y : String}
    (h : containsStr acc y = true) : containsStr (dcs.foldl cviewStep acc) y = true := by
  induction dcs generalizing acc with
  | nil => simpa using h
  | cons c rest ih => exact ih (cviewStep_mono c h)

theorem cview_foldl_mem_of_reported {c : DockerContainer}
    {links0 : List Link} {eth0 : Link}
    (hmode : ¬c.networkMode = "host") (hns : c.nsLinks = some links0)
    (hfind : links0.find? (fun l => l.name == "eth0") = some eth0) :
    ∀ dcs : List DockerContainer, c ∈ dcs →
      ∀ acc, containsStr (dcs.foldl cviewStep acc) (intToStr eth0.parentIndex) = true := by
  intro dcs
  induction dcs with
  | nil => intro hc; cases hc
  | cons d rest ih =>
    intro hc acc
    rcases List.mem_cons.mp hc with hcd | hcr
    · subst hcd
      have hstep : cviewStep acc c = insertSet acc (intToStr eth0.parentIndex) := by
        unfold cviewStep
        rw [if_neg hmode, hns]
        simp only [hfind]
      simp only [List.foldl_cons, hstep]
      exact cview_foldl_mono rest (containsStr_insertSet_self _ _)
    · simp only [List.foldl_cons]
      exact ih hcr (cviewStep acc d)

theorem cview_mem_of_reported {dcs : List DockerContainer} {c : DockerContainer}
    {links0 : List Link} {eth0 : Link}
    (hc : c ∈ dcs) (hmode : ¬c.networkMode = "host") (hns : c.nsLinks = some links0)
    (hfind : links0.find? (fun l => l.name == "eth0") = some eth0) :
    containsStr (GetContainersViewVethMapByEnteringNS dcs) (intToStr eth0.parentIndex) = true :=
  cview_foldl_mem_of_reported hmode hns hfind dcs hc []

theorem lbStep_mono (n : Network) {acc : List String} {y : String}
    (h : containsStr acc y = true) : containsStr (lbStep acc n) y = true := by
  unfold lbStep
  split
  · exact h
  · dsimp only
    split
    · exact h
    · exact containsStr_insertSet_of _ h

theorem lb_foldl_mono (nets : List Network) {acc : List String} {y : String}
    (h : containsStr acc y = true) : containsStr (nets.foldl lbStep acc) y = true := by
  induction nets generalizing acc with
  | nil => simpa using h
  | cons n rest ih => exact ih (lbStep_mono n h)

theorem localBridgeNames_mem {n : Network} {cfg : List (String × JVal)} {b : String}
    (hcfg : networkCniConfig n = some cfg)
    (hbr : getBridgeInfoFromCNIConfig cfg = (b, false)) :
    ∀ nets : List Network, n ∈ nets → containsStr (localBridgeNames nets) b = true := by
  intro nets
  unfold localBridgeNames
  suffices H : ∀ acc, n ∈ nets → containsStr (nets.foldl lbStep acc) b = true from fun hn => H [] hn
  induction nets with
  | nil => intro _ hn; cases hn
  | cons d rest ih =>
    intro acc hn
    rcases List.mem_cons.mp hn with hnd | hnr
    · subst hnd
      have hstep : lbStep acc n = insertSet acc b := by
        unfold lbStep
        rw [hcfg]
        simp only [hbr]
        simp
      simp only [List.foldl_cons, hstep]
      exact lb_foldl_mono rest (containsStr_insertSet_self _ _)
    · simp only [List.foldl_cons]
      exact ih (lbStep acc d) hnr

theorem gb_foldl_no_error {l : List (String × JVal)} :
    ∀ {acc : String × Bool}, acc.2 = false → (∀ kv ∈ l, wellFormedCniEntry kv) →
      (l.foldl (fun a kv => gbStep a kv.2) acc).2 = false := by
  induction l with
  | nil => intro acc hacc _; simpa using hacc
  | cons kv rest ih =>
    intro acc hacc hwf
    obtain ⟨props, b, h1, h2⟩ := hwf kv (List.mem_cons_self kv rest)
    simp only [List.foldl_cons]
    refine ih ?_ (fun kv2 h => hwf kv2 (List.mem_cons_of_mem _ h))
    unfold gbStep
    rw [h1]
    simp only [h2]
    exact hacc

theorem gb_last_bridge {pre : List (String × JVal)} {k : String}
    {props : List (String × JVal)} {b : String}
    (hwf : ∀ kv ∈ pre, wellFormedCniEntry kv)
    (hb : jLookup props "bridge" = some (JVal.str b)) :
    getBridgeInfoFromCNIConfig (pre ++ [(k, JVal.obj props)]) = (b, false) := by
  unfold getBridgeInfoFromCNIConfig
  rw [List.foldl_append]
  have h2 : (pre.foldl (fun a kv => gbStep a kv.2) ("", false)).2 = false :=
    gb_foldl_no_error rfl hwf
  simp only [List.foldl_cons, List.foldl_nil]
  unfold gbStep
  simp only [hb]
  exact Prod.ext rfl h2

theorem applyLinkDeletes_nil (links : List Link) : applyLinkDeletes [] links = links := by
  unfold applyLinkDeletes
  apply List.filter_eq_self.mpr
  intro l _
  exact decide_eq_true (by simp)

theorem arpProcessEntry_some {ctx : ArpCtx} {e : NeighEntry} {m : KernelMutation}
    (h : arpProcessEntry ctx e = some m) :
    ∃ c hw, (e.linkIndex = ctx.bridgeIndex ∧ subnetContains ctx.subnet e.ip = true) ∧
      lookupMap ctx.cmap (ipToString e.ip) = some c ∧
      parseMAC (if c.hostUUID = ctx.hostUUID then c.primaryMacAddress else ctx.driverMac) = some hw ∧
      m = KernelMutation.neighborSet { e with hardwareAddr := hw, typ := nudReachable } := by
  unfold arpProcessEntry at h
  split at h
  case isFalse => exact absurd h (by simp)
  case isTrue hfilt =>
    split at h
    case h_2 => exact absurd h (by simp)
    case h_1 c hlook =>
      split at h
      case isTrue hhost =>
        split at h
        case isFalse => exact absurd h (by simp)
        case isTrue hne =>
          split at h
          case h_2 => exact absurd h (by simp)
          case h_1 hw hparse =>
            refine ⟨c, hw, hfilt, hlook, ?_, by simpa using h.symm⟩
            rw [if_pos hhost]; exact hparse
      case isFalse hhost =>
        split at h
        case isFalse => exact absurd h (by simp)
        case isTrue hne =>
          split at h
          case h_2 => exact absurd h (by simp)
          case h_1 hw hparse =>
            refine ⟨c, hw, hfilt, hlook, ?_, by simpa using h.symm⟩
            rw [if_neg hhost]; exact hparse

theorem arpProcessEntry_none_of_mac_eq {ctx : ArpCtx} {e : NeighEntry} {c : Container}
    (hlook : lookupMap ctx.cmap (ipToString e.ip) = some c)
    (hmac : e.hardwareAddr = (if c.hostUUID = ctx.hostUUID then c.primaryMacAddress else ctx.driverMac)) :
    arpProcessEntry ctx e = none := by
  unfold arpProcessEntry
  split
  case isFalse => rfl
  case isTrue =>
    rw [hlook]
    simp only []
    split
    case isTrue hhost =>
      rw [if_pos hhost] at hmac
      rw [if_neg (fun hne => hne hmac.symm)]
    case isFalse hhost =>
      rw [if_neg hhost] at hmac
      rw [if_neg (fun hne => hne hmac)]

theorem ctProcessEntry_some {cmap : List (String × Container)} {e : CTEntry}
    {m : KernelMutation} (h : ctProcessEntry cmap e = some m) :
    m = KernelMutation.conntrackDelete e ∧
      ∃ c, (lookupMap cmap (ctSpecificKey e) = some c ∨
          (lookupMap cmap (ctSpecificKey e) = none ∧ lookupMap cmap (ctGenericKey e) = some c)) ∧
        ¬e.replySourceIP = c.primaryIp := by
  unfold ctProcessEntry at h
  split at h
  case h_1 c hspec =>
    split at h
    case isFalse => exact absurd h (by simp)
    case isTrue hne =>
      exact ⟨by simpa using h.symm, c, Or.inl hspec, hne⟩
  case h_2 hspec =>
    split at h
    case h_1 c hgen =>
      split at h
      case isFalse => exact absurd h (by simp)
      case isTrue hne =>
        exact ⟨by simpa using h.symm, c, Or.inr ⟨hspec, hgen⟩, hne⟩
    case h_2 => exact absurd h (by simp)

theorem ctProcessEntry_delete_of {cmap : List (String × Container)} {e : CTEntry}
    {c : Container}
    (hhit : lookupMap cmap (ctSpecificKey e) = some c ∨
      (lookupMap cmap (ctSpecificKey e) = none ∧ lookupMap cmap (ctGenericKey e) = some c))
    (hne : ¬e.replySourceIP = c.primaryIp) :
    ctProcessEntry cmap e = some (KernelMutation.conntrackDelete e) := by
  unfold ctProcessEntry
  rcases hhit with hspec | ⟨hspec, hgen⟩
  · rw [hspec]
    simp only []
    rw [if_pos hne]
  · rw [hspec]
    simp only []
    rw [hgen]
    simp only []
    rw [if_pos hne]

theorem GetHostViewVethMap_ok_elim {vethPfx : String} {networks : List Network}
    {alllinks : List Link} {hostMap : List (String × Link)}
    (hok : GetHostViewVethMap vethPfx networks alllinks = Except.ok hostMap) :
    hostMap = alllinks.filterMap (fun l =>
      if strStartsWith l.name vethPfx &&
          containsInt (alllinks.filterMap (fun l2 =>
            if containsStr (localBridgeNames networks) l2.name then some l2.index else none))
            l.masterIndex then
        some (intToStr l.index, l)
      else none) := by
  simp only [GetHostViewVethMap] at hok
  split at hok
  · exact absurd hok (by simp)
  · injection hok with h
    exact h.symm

theorem buildPortKey_ok {p : String}
    (hp : ∀ a b t, goSplit ':' p = [a, b, t] → 2 ≤ (goSplit '/' t).length) :
    ∃ r, buildPortKey p = Except.ok r := by
  unfold buildPortKey
  split
  case h_1 hostIP hostPort lastPart heq =>
    have hlen := hp hostIP hostPort lastPart heq
    cases h2 : goSplit '/' lastPart with
    | nil => rw [h2] at hlen; simp only [List.length_nil] at hlen; omega
    | cons x rest =>
      cases rest with
      | nil =>
        rw [h2] at hlen
        simp only [List.length_cons, List.length_nil] at hlen
        omega
      | cons y rest2 =>
        exact ⟨some (hostIP ++ ":" ++ hostPort ++ "/" ++ y), rfl⟩
  case h_2 => exact ⟨none, rfl⟩

theorem addContainerPorts_ok {c : Container} {ports : List String}
    (hp : ∀ p ∈ ports, ∀ a b t, goSplit ':' p = [a, b, t] → 2 ≤ (goSplit '/' t).length) :
    ∀ m, ∃ m2, addContainerPorts c m ports = Except.ok m2 := by
  induction ports with
  | nil => exact fun m => ⟨m, rfl⟩
  | cons p rest ih =>
    intro m
    obtain ⟨r, hr⟩ := buildPortKey_ok (hp p (List.mem_cons_self p rest))
    have ih2 := fun m0 => ih (fun q hq => hp q (List.mem_cons_of_mem _ hq)) m0
    unfold addContainerPorts
    rw [hr]
    cases r with
    | none => exact ih2 m
    | some k => exact ih2 (mapInsert m k c)

theorem buildContainersMapsAux_ok {hostUUID : String} {containers : List Container}
    (hp : ∀ c ∈ containers, ∀ p ∈ c.ports, ∀ a b t,
      goSplit ':' p = [a, b, t] → 2 ≤ (goSplit '/' t).length) :
    ∀ m, ∃ m2, buildContainersMapsAux hostUUID m containers = Except.ok m2 := by
  induction containers with
  | nil => exact fun m => ⟨m, rfl⟩
  | cons c rest ih =>
    intro m
    have ihr := fun m0 => ih (fun c2 h2 => hp c2 (List.mem_cons_of_mem _ h2)) m0
    unfold buildContainersMapsAux
    split
    · obtain ⟨m2, hm2⟩ := addContainerPorts_ok (hp c (List.mem_cons_self c rest)) m
      rw [hm2]
      exact ihr m2
    · exact ihr m

/-! ## Idempotence of a second reconciliation pass -/

theorem arp_step_idem (ctx : ArpCtx) (entries : List NeighEntry) (hc : macsCanonical ctx) :
    arpDoSyncEntries ctx (applyNeighSets (arpDoSyncEntries ctx entries) entries) = [] := by
  apply List.filterMap_eq_nil_iff.mpr
  intro e2 he2
  unfold applyNeighSets at he2
  obtain ⟨e, he, heq⟩ := List.mem_map.mp he2
  cases hfind : (arpDoSyncEntries ctx entries).find? (neighKeyMatches e) with
  | none =>
    have he2e : e2 = e := by
      rw [← heq]; unfold updNeighEntry; rw [hfind]
    rw [he2e]
    cases hpe : arpProcessEntry ctx e with
    | none => rfl
    | some m =>
      obtain ⟨c, hw, hfilt, hlook, hparse, hm⟩ := arpProcessEntry_some hpe
      have hmem : m ∈ arpDoSyncEntries ctx entries :=
        List.mem_filterMap.mpr ⟨e, he, hpe⟩
      have hkey : neighKeyMatches e m = true := by
        subst hm; simp [neighKeyMatches]
      exact absurd hkey (List.find?_eq_none.mp hfind m hmem)
  | some m =>
    have hkey : neighKeyMatches e m = true := List.find?_some hfind
    have hmmem : m ∈ arpDoSyncEntries ctx entries := List.mem_of_find?_eq_some hfind
    obtain ⟨e0, he0, hpe0⟩ := List.mem_filterMap.mp hmmem
    obtain ⟨c, hw, hfilt0, hlook0, hparse0, hm⟩ := arpProcessEntry_some hpe0
    subst hm
    have he2n : e2 = { e0 with hardwareAddr := hw, typ := nudReachable } := by
      rw [← heq]; unfold updNeighEntry; rw [hfind]
    subst he2n
    have hwexp : hw = (if c.hostUUID = ctx.hostUUID then c.primaryMacAddress else ctx.driverMac) := by
      obtain ⟨k0, hk0⟩ := lookupMap_some_mem hlook0
      have hcanon := hc.2 (k0, c) hk0
      by_cases hh : c.hostUUID = ctx.hostUUID
      · rw [if_pos hh] at hparse0 ⊢
        rw [hcanon] at hparse0
        exact (Option.some.inj hparse0).symm
      · rw [if_neg hh] at hparse0 ⊢
        rw [hc.1] at hparse0
        exact (Option.some.inj hparse0).symm
    exact arpProcessEntry_none_of_mac_eq hlook0 hwexp

theorem ct_step_idem (cmap : List (String × Container)) (entries : List CTEntry) :
    ctDoSync cmap (applyCtDeletes (ctDoSync cmap entries) entries) = [] := by
  apply List.filterMap_eq_nil_iff.mpr
  intro e he
  unfold applyCtDeletes at he
  rw [List.mem_filter] at he
  obtain ⟨hmem, hnot⟩ := he
  have hnot2 : KernelMutation.conntrackDelete e ∉ ctDoSync cmap entries := of_decide_eq_true hnot
  cases hpe : ctProcessEntry cmap e with
  | none => rfl
  | some m =>
    obtain ⟨hm, _⟩ := ctProcessEntry_some hpe
    subst hm
    exact absurd (List.mem_filterMap.mpr ⟨e, hmem, hpe⟩) hnot2

theorem veth_step_idem (vethPfx : String) (networks : List Network) (links : List Link)
    (cview : List String) :
    vethDoSync vethPfx networks
      (applyLinkDeletes (vethDoSync vethPfx networks links cview) links) cview = [] := by
  cases h1 : GetHostViewVethMap vethPfx networks links with
  | error s =>
    have hm : vethDoSync vethPfx networks links cview = [] := by
      unfold vethDoSync; rw [h1]
    rw [hm, applyLinkDeletes_nil]
    exact hm
  | ok hostMap =>
    have hm : vethDoSync vethPfx networks links cview =
        CleanUpDanglingVeths (GetDanglingVeths hostMap cview) := by
      unfold vethDoSync; rw [h1]
    rw [hm]
    unfold vethDoSync
    cases h2 : GetHostViewVethMap vethPfx networks
        (applyLinkDeletes (CleanUpDanglingVeths (GetDanglingVeths hostMap cview)) links) with
    | error s => rfl
    | ok hostMap2 =>
      simp only []
      unfold CleanUpDanglingVeths
      rw [List.map_eq_nil_iff]
      unfold GetDanglingVeths
      rw [List.filter_eq_nil_iff]
      intro kv hkv
      rw [Bool.not_eq_true, Bool.not_eq_false']
      have h2elim := GetHostViewVethMap_ok_elim h2
      rw [h2elim] at hkv
      obtain ⟨l, hl2, hguard⟩ := List.mem_filterMap.mp hkv
      split at hguard
      case isFalse => exact absurd hguard (by simp)
      case isTrue hcond =>
        have hkv2 := Option.some.inj hguard
        rw [Bool.and_eq_true] at hcond
        obtain ⟨hpfx, hb2⟩ := hcond
        have hl2' := hl2
        unfold applyLinkDeletes at hl2'
        rw [List.mem_filter] at hl2'
        obtain ⟨hlmem, hnotdel'⟩ := hl2'
        have hnotdel : KernelMutation.linkDelete l ∉
            CleanUpDanglingVeths (GetDanglingVeths hostMap cview) := of_decide_eq_true hnotdel'
        rw [containsInt_iff] at hb2
        obtain ⟨b, hbmem2, hbsome⟩ := List.mem_filterMap.mp hb2
        have hbmem1 : b ∈ links := by
          have := hbmem2
          unfold applyLinkDeletes at this
          rw [List.mem_filter] at this
          exact this.1
        have hb1 : containsInt (links.filterMap (fun l2 =>
            if containsStr (localBridgeNames networks) l2.name then some l2.index else none))
            l.masterIndex = true := by
          rw [containsInt_iff]
          exact List.mem_filterMap.mpr ⟨b, hbmem1, hbsome⟩
        have h1elim := GetHostViewVethMap_ok_elim h1
        have hkv1 : (intToStr l.index, l) ∈ hostMap := by
          rw [h1elim]
          refine List.mem_filterMap.mpr ⟨l, hlmem, ?_⟩
          rw [if_pos]
          rw [Bool.and_eq_true]
          exact ⟨hpfx, hb1⟩
        by_contra hnc
        rw [Bool.not_eq_true] at hnc
        have hdang : (intToStr l.index, l) ∈ GetDanglingVeths hostMap cview := by
          unfold GetDanglingVeths
          rw [List.mem_filter]
          refine ⟨hkv1, ?_⟩
          rw [← hkv2] at hnc
          simp only [← hkv2]
          rw [hnc]
          rfl
        have hdel : KernelMutation.linkDelete l ∈
            CleanUpDanglingVeths (GetDanglingVeths hostMap cview) := by
          unfold CleanUpDanglingVeths
          exact List.mem_map.mpr ⟨(intToStr l.index, l), hdang, rfl⟩
        exact hnotdel hdel


/-! ## Claim theorems -/

/-- C1: at the spec's own scenario (local container with PrimaryIp
10.42.0.5 and canonical MAC, stale neighbor entry with a wrong MAC) the
embedded entry loop issues exactly one `NeighSet` whose hardware address is
the expected MAC — but the upsert carries the old `State` (still
`NUD_STALE`) and instead sets the distinct `Type` field to `NUD_REACHABLE`,
because `doSync` assigns `newEntry.Type = netlink.NUD_REACHABLE` rather
than `newEntry.State`; the claim's `State=REACHABLE` is not what the code
issues. -/
theorem c1_arp_repair_sets_type_field_not_state :
    arpDoSyncEntries
      { hostUUID := "h1", driverMac := "02:dd:dd:dd:dd:dd", bridgeIndex := 7,
        subnet := { base := 170524672, maskBits := 16 },
        cmap := buildContainersMap
          [{ hostUUID := "h1", networkUUID := "n1", primaryIp := "10.42.0.5",
             primaryMacAddress := "02:aa:aa:aa:aa:05", ports := [] }]
          { uuid := "n1", metadata := [] } }
      [{ linkIndex := 7, ip := 170524677, hardwareAddr := "02:bb:bb:bb:bb:bb",
         state := nudStale, typ := 0 }] =
      [KernelMutation.neighborSet
        { linkIndex := 7, ip := 170524677, hardwareAddr := "02:aa:aa:aa:aa:05",
          state := nudStale, typ := nudReachable }] ∧
    ¬nudStale = nudReachable := by
  constructor
  · decide
  · decide

/-- C3: a conntrack deletion for entry `e` is issued by the embedded
`conntracksync.doSync` entry loop exactly when `e` is in the snapshot and
either the specific key `{OriginalDestinationIp}:{OriginalDestinationPort}/{Protocol}`
hits the published-port map, or it misses and the generic key
`0.0.0.0:{OriginalDestinationPort}/{Protocol}` hits, with the mapped
container's `PrimaryIp` differing from `e.ReplySourceIp`; when both keys
miss, or the IPs agree, no mutation is issued for `e`. -/
theorem c3_conntrack_lookup_chain (cmap : List (String × Container))
    (entries : List CTEntry) (e : CTEntry) :
    KernelMutation.conntrackDelete e ∈ ctDoSync cmap entries ↔
      e ∈ entries ∧ ∃ c,
        (lookupMap cmap (ctSpecificKey e) = some c ∨
          (lookupMap cmap (ctSpecificKey e) = none ∧
            lookupMap cmap (ctGenericKey e) = some c)) ∧
        ¬e.replySourceIP = c.primaryIp := by
  constructor
  · intro h
    obtain ⟨a, ha, hpa⟩ := List.mem_filterMap.mp h
    obtain ⟨hm, c, hhit, hne⟩ := ctProcessEntry_some hpa
    have hae : a = e := (KernelMutation.conntrackDelete.inj hm).symm
    subst hae
    exact ⟨ha, c, hhit, hne⟩
  · intro h
    obtain ⟨he, c, hhit, hne⟩ := h
    exact List.mem_filterMap.mpr ⟨e, he, ctProcessEntry_delete_of hhit hne⟩

/-- C3 witness: the spec's conntrack scenario — specific key misses, the
generic key `0.0.0.0:8080/tcp` hits, reply source differs — so the deletion
is in the issued mutation list. -/
theorem c3_witness :
    KernelMutation.conntrackDelete
        { originalDestinationIP := "10.0.0.1", originalDestinationPort := "8080",
          protocol := "tcp", replySourceIP := "10.42.0.9" } ∈
      ctDoSync
        [("0.0.0.0:8080/tcp",
          { hostUUID := "h1", networkUUID := "n1", primaryIp := "10.42.0.5",
            primaryMacAddress := "", ports := ["0.0.0.0:8080:80/tcp"] })]
        [{ originalDestinationIP := "10.0.0.1", originalDestinationPort := "8080",
           protocol := "tcp", replySourceIP := "10.42.0.9" }] :=
  (c3_conntrack_lookup_chain _ _ _).mpr
    ⟨by decide,
      { hostUUID := "h1", networkUUID := "n1", primaryIp := "10.42.0.5",
        primaryMacAddress := "", ports := ["0.0.0.0:8080:80/tcp"] },
      Or.inr ⟨by decide, by decide⟩, by decide⟩

/-- C4: every kernel mutation the ARP entry loop issues is a neighbor
upsert (never a deletion) derived from a snapshot entry that passed the
bridge-index and subnet filter and whose IP maps to a container in the
ip-to-container map; entries outside the filter or without a matching
container contribute no mutation. -/
theorem c4_arp_frame_condition (ctx : ArpCtx) (entries : List NeighEntry)
    (m : KernelMutation) (hm : m ∈ arpDoSyncEntries ctx entries) :
    ∃ e c hw, e ∈ entries ∧ e.linkIndex = ctx.bridgeIndex ∧
      subnetContains ctx.subnet e.ip = true ∧
      lookupMap ctx.cmap (ipToString e.ip) = some c ∧
      m = KernelMutation.neighborSet { e with hardwareAddr := hw, typ := nudReachable } := by
  obtain ⟨e, he, hpe⟩ := List.mem_filterMap.mp hm
  obtain ⟨c, hw, hfilt, hlook, hparse, hmm⟩ := arpProcessEntry_some hpe
  exact ⟨e, c, hw, he, hfilt.1, hfilt.2, hlook, hmm⟩

/-- C4 witness: at the concrete scenario of C1 the single issued mutation
is a neighbor upsert for the filtered, mapped entry. -/
theorem c4_witness :
    ∃ e c hw,
      e ∈ [({ linkIndex := 7, ip := 170524677, hardwareAddr := "02:bb:bb:bb:bb:bb",
              state := nudStale, typ := 0 } : NeighEntry)] ∧
      e.linkIndex = (7 : Int) ∧
      subnetContains { base := 170524672, maskBits := 16 } e.ip = true ∧
      lookupMap (buildContainersMap
          [{ hostUUID := "h1", networkUUID := "n1", primaryIp := "10.42.0.5",
             primaryMacAddress := "02:aa:aa:aa:aa:05", ports := [] }]
          { uuid := "n1", metadata := [] }) (ipToString e.ip) = some c ∧
      KernelMutation.neighborSet
          { linkIndex := 7, ip := 170524677, hardwareAddr := "02:aa:aa:aa:aa:05",
            state := nudStale, typ := nudReachable } =
        KernelMutation.neighborSet { e with hardwareAddr := hw, typ := nudReachable } :=
  c4_arp_frame_condition
    { hostUUID := "h1", driverMac := "02:dd:dd:dd:dd:dd", bridgeIndex := 7,
      subnet := { base := 170524672, maskBits := 16 },
      cmap := buildContainersMap
        [{ hostUUID := "h1", networkUUID := "n1", primaryIp := "10.42.0.5",
           primaryMacAddress := "02:aa:aa:aa:aa:05", ports := [] }]
        { uuid := "n1", metadata := [] } }
    [{ linkIndex := 7, ip := 170524677, hardwareAddr := "02:bb:bb:bb:bb:bb",
       state := nudStale, typ := 0 }]
    (KernelMutation.neighborSet
      { linkIndex := 7, ip := 170524677, hardwareAddr := "02:aa:aa:aa:aa:05",
        state := nudStale, typ := nudReachable })
    (by decide)

/-- C2: every link deletion issued by the veth cleanup pipeline over a
successfully built host view targets a link whose name starts with the
configured veth prefix, whose `MasterIndex` is the index of a link named as
a local bridge, and whose decimal index is absent from the container view;
in particular no container whose namespace was entered reports that index
as its `eth0` `ParentIndex`. -/
theorem c2_veth_delete_safety (vethPfx : String) (networks : List Network)
    (alllinks : List Link) (dcs : List DockerContainer) (hostMap : List (String × Link))
    (hok : GetHostViewVethMap vethPfx networks alllinks = Except.ok hostMap)
    (m : KernelMutation)
    (hm : m ∈ CleanUpDanglingVeths
      (GetDanglingVeths hostMap (GetContainersViewVethMapByEnteringNS dcs))) :
    ∃ l, m = KernelMutation.linkDelete l ∧
      strStartsWith l.name vethPfx = true ∧
      (∃ b ∈ alllinks, containsStr (localBridgeNames networks) b.name = true ∧
        b.index = l.masterIndex) ∧
      containsStr (GetContainersViewVethMapByEnteringNS dcs) (intToStr l.index) = false ∧
      (∀ c ∈ dcs, ¬c.networkMode = "host" → ∀ links0, c.nsLinks = some links0 →
        ∀ eth0, links0.find? (fun l0 => l0.name == "eth0") = some eth0 →
          ¬eth0.parentIndex = l.index) := by
  unfold CleanUpDanglingVeths at hm
  obtain ⟨kv, hkv, hmm⟩ := List.mem_map.mp hm
  unfold GetDanglingVeths at hkv
  rw [List.mem_filter] at hkv
  obtain ⟨hkvhost, hkvnot⟩ := hkv
  have helim := GetHostViewVethMap_ok_elim hok
  rw [helim] at hkvhost
  obtain ⟨l, hlmem, hguard⟩ := List.mem_filterMap.mp hkvhost
  split at hguard
  case isFalse => exact absurd hguard (by simp)
  case isTrue hcond =>
    have hkveq := Option.some.inj hguard
    rw [Bool.and_eq_true] at hcond
    obtain ⟨hpfx, hbidx⟩ := hcond
    rw [containsInt_iff] at hbidx
    obtain ⟨b, hbmem, hbsome⟩ := List.mem_filterMap.mp hbidx
    split at hbsome
    case isFalse => exact absurd hbsome (by simp)
    case isTrue hbname =>
      have hbeq := Option.some.inj hbsome
      have hnotcv : containsStr (GetContainersViewVethMapByEnteringNS dcs)
          (intToStr l.index) = false := by
        rw [← hkveq] at hkvnot
        rwa [Bool.not_eq_true'] at hkvnot
      refine ⟨l, by rw [← hkveq] at hmm; exact hmm.symm, hpfx,
        ⟨b, hbmem, hbname, hbeq⟩, hnotcv, ?_⟩
      intro c hc hcm links0 hns eth0 hfind heq
      have hrep := cview_mem_of_reported hc hcm hns hfind
      rw [heq] at hrep
      rw [hnotcv] at hrep
      exact absurd hrep (by decide)

/-- C2 witness: with one bridge `docker0`, two prefixed veths of which only
index 42 is referenced by a live container, the single issued deletion
(link index 43) satisfies all three safety conditions. -/
theorem c2_witness :
    ∃ l, (KernelMutation.linkDelete
        { index := 43, name := "vethr2", masterIndex := 2, parentIndex := 0 }
          : KernelMutation) = KernelMutation.linkDelete l ∧
      strStartsWith l.name "vethr" = true ∧
      (∃ b ∈ [({ index := 2, name := "docker0", masterIndex := 0, parentIndex := 0 } : Link),
              { index := 42, name := "vethr1", masterIndex := 2, parentIndex := 0 },
              { index := 43, name := "vethr2", masterIndex := 2, parentIndex := 0 }],
        containsStr (localBridgeNames
          [{ uuid := "n1",
             metadata := [("cniConfig",
               JVal.obj [("10-br", JVal.obj [("bridge", JVal.str "docker0")])])] }]) b.name = true ∧
        b.index = l.masterIndex) ∧
      containsStr (GetContainersViewVethMapByEnteringNS
        [{ id := "abcdef", networkMode := "default",
           nsLinks := some [{ index := 9, name := "eth0", masterIndex := 0, parentIndex := 42 }] }])
        (intToStr l.index) = false ∧
      (∀ c ∈ [({ id := "abcdef", networkMode := "default",
                 nsLinks := some [{ index := 9, name := "eth0", masterIndex := 0,
                                    parentIndex := 42 }] } : DockerContainer)],
        ¬c.networkMode = "host" → ∀ links0, c.nsLinks = some links0 →
        ∀ eth0, links0.find? (fun l0 => l0.name == "eth0") = some eth0 →
          ¬eth0.parentIndex = l.index) :=
  c2_veth_delete_safety "vethr"
    [{ uuid := "n1",
       metadata := [("cniConfig",
         JVal.obj [("10-br", JVal.obj [("bridge", JVal.str "docker0")])])] }]
    [{ index := 2, name := "docker0", masterIndex := 0, parentIndex := 0 },
     { index := 42, name := "vethr1", masterIndex := 2, parentIndex := 0 },
     { index := 43, name := "vethr2", masterIndex := 2, parentIndex := 0 }]
    [{ id := "abcdef", networkMode := "default",
       nsLinks := some [{ index := 9, name := "eth0", masterIndex := 0, parentIndex := 42 }] }]
    [("42", { index := 42, name := "vethr1", masterIndex := 2, parentIndex := 0 }),
     ("43", { index := 43, name := "vethr2", masterIndex := 2, parentIndex := 0 })]
    rfl
    (KernelMutation.linkDelete
      { index := 43, name := "vethr2", masterIndex := 2, parentIndex := 0 })
    (by decide)

/-- C5 counterexample: `syncLoop` contains no `recover`, so the panic the
conntrack watcher's map construction raises on the malformed port
"0.0.0.0:8080:80" escapes the loop: the run over two scheduled ticks ends
with the propagated panic (process death) instead of completing the second
tick, refuting the claim that a panic inside a step is logged and the loop
ticks on. -/
theorem c5_counterexample_panic_escapes :
    syncLoopRun
      [(conntracksyncDoSync "h1"
          [{ hostUUID := "h1", networkUUID := "n1", primaryIp := "10.42.0.5",
             primaryMacAddress := "", ports := ["0.0.0.0:8080:80"] }] []).map
         (fun _ => none),
       Except.ok none] = Except.error GoPanic.indexOutOfRange := rfl

/-- C5 amended: a reconciliation step that returns normally — in particular
one that returns a Go error value, which `syncLoop` only logs — never
terminates the loop: every scheduled tick completes.  A panic, by contrast,
propagates (see the counterexample). -/
theorem c5_error_does_not_kill_loop (results : List StepResult)
    (h : ∀ r ∈ results, stepReturned r = true) :
    syncLoopRun results = Except.ok results.length := by
  induction results with
  | nil => rfl
  | cons r rest ih =>
    have hr := h r (List.mem_cons_self r rest)
    cases r with
    | error pan => exact absurd hr (by simp [stepReturned])
    | ok x =>
      unfold syncLoopRun
      rw [ih (fun q hq => h q (List.mem_cons_of_mem _ hq))]
      rfl

/-- C5 witness: a loop fed one clean tick and one tick returning a Go error
completes both ticks. -/
theorem c5_witness :
    syncLoopRun [Except.ok none, Except.ok (some "sync error")] = Except.ok 2 :=
  c5_error_does_not_kill_loop [Except.ok none, Except.ok (some "sync error")] (by decide)

/-- C6 counterexample: a CNI config with one entry lacking a `"bridge"`
string (as a loopback plugin entry would) and one entry carrying
`"bridge": "docker0"` makes `getBridgeInfoFromCNIConfig` return `docker0`
together with a non-nil `lastErr`, so the caller skips the network and the
local-bridge set is empty — the bridge is not yielded, refuting the claim
that any entry with a bridge suffices. -/
theorem c6_counterexample_error_poisoning :
    getBridgeInfoFromCNIConfig
        [("00-lo", JVal.obj []), ("10-br", JVal.obj [("bridge", JVal.str "docker0")])] =
      ("docker0", true) ∧
    localBridgeNames
        [{ uuid := "n1",
           metadata := [("cniConfig", JVal.obj
             [("00-lo", JVal.obj []), ("10-br", JVal.obj [("bridge", JVal.str "docker0")])])] }] =
      [] := ⟨rfl, rfl⟩

/-- C6 amended: the veth-enumeration bridge-discovery variant consults no
`"type"` field, but it succeeds only when every entry of the CNI config
mapping is an object with a string `"bridge"` field; it then returns the
bridge of the last enumerated entry with no error, and that bridge is in
the host view's local-bridge set (the union over the local networks of the
per-network result). -/
theorem c6_last_bridge_union :
    (∀ (cniConf pre : List (String × JVal)) (k : String)
        (props : List (String × JVal)) (b : String),
      cniConf = pre ++ [(k, JVal.obj props)] →
      (∀ kv ∈ cniConf, wellFormedCniEntry kv) →
      jLookup props "bridge" = some (JVal.str b) →
      getBridgeInfoFromCNIConfig cniConf = (b, false)) ∧
    (∀ (nets : List Network) (n : Network) (cfg : List (String × JVal)) (b : String),
      n ∈ nets → networkCniConfig n = some cfg →
      getBridgeInfoFromCNIConfig cfg = (b, false) →
      containsStr (localBridgeNames nets) b = true) := by
  constructor
  · intro cniConf pre k props b hsplit hwf hb
    subst hsplit
    exact gb_last_bridge (fun kv hkv => hwf kv (List.mem_append_left _ hkv)) hb
  · intro nets n cfg b hn hcfg hbr
    exact localBridgeNames_mem hcfg hbr nets hn

/-- C6 witness: a two-entry config whose entries both carry bridges yields
the last bridge without error, and that bridge lands in the local-bridge
set. -/
theorem c6_witness :
    getBridgeInfoFromCNIConfig
        [("10-br1", JVal.obj [("bridge", JVal.str "cni0")]),
         ("20-br2", JVal.obj [("bridge", JVal.str "docker0")])] = ("docker0", false) ∧
    containsStr (localBridgeNames
        [{ uuid := "n1",
           metadata := [("cniConfig", JVal.obj
             [("20-br2", JVal.obj [("bridge", JVal.str "docker0")])])] }]) "docker0" = true :=
  ⟨c6_last_bridge_union.1
      [("10-br1", JVal.obj [("bridge", JVal.str "cni0")]),
       ("20-br2", JVal.obj [("bridge", JVal.str "docker0")])]
      [("10-br1", JVal.obj [("bridge", JVal.str "cni0")])]
      "20-br2" [("bridge", JVal.str "docker0")] "docker0" rfl
      (by
        intro kv hkv
        simp only [List.mem_cons, List.not_mem_nil, or_false] at hkv
        rcases hkv with rfl | rfl
        · exact ⟨[("bridge", JVal.str "cni0")], "cni0", rfl, rfl⟩
        · exact ⟨[("bridge", JVal.str "docker0")], "docker0", rfl, rfl⟩)
      rfl,
   c6_last_bridge_union.2
      [{ uuid := "n1",
         metadata := [("cniConfig", JVal.obj
           [("20-br2", JVal.obj [("bridge", JVal.str "docker0")])])] }]
      { uuid := "n1",
        metadata := [("cniConfig", JVal.obj
          [("20-br2", JVal.obj [("bridge", JVal.str "docker0")])])] }
      [("20-br2", JVal.obj [("bridge", JVal.str "docker0")])] "docker0"
      (List.mem_singleton.mpr rfl) rfl rfl⟩

/-- C7 counterexample: with a metadata MAC in non-canonical (upper-case)
form, the ARP repair stores the parsed, canonical lower-case MAC; on the
next pass the stored string again differs from the metadata string, so the
second reconciliation over otherwise unchanged inputs issues a mutation
again, refuting strict idempotence. -/
theorem c7_counterexample_noncanonical_mac :
    ¬(arpDoSyncEntries
        { hostUUID := "h1", driverMac := "02:dd:dd:dd:dd:dd", bridgeIndex := 7,
          subnet := { base := 170524672, maskBits := 16 },
          cmap := buildContainersMap
            [{ hostUUID := "h1", networkUUID := "n1", primaryIp := "10.42.0.5",
               primaryMacAddress := "02:AA:AA:AA:AA:05", ports := [] }]
            { uuid := "n1", metadata := [] } }
        (applyNeighSets
          (arpDoSyncEntries
            { hostUUID := "h1", driverMac := "02:dd:dd:dd:dd:dd", bridgeIndex := 7,
              subnet := { base := 170524672, maskBits := 16 },
              cmap := buildContainersMap
                [{ hostUUID := "h1", networkUUID := "n1", primaryIp := "10.42.0.5",
                   primaryMacAddress := "02:AA:AA:AA:AA:05", ports := [] }]
                { uuid := "n1", metadata := [] } }
            [{ linkIndex := 7, ip := 170524677, hardwareAddr := "02:bb:bb:bb:bb:bb",
               state := nudStale, typ := 0 }])
          [{ linkIndex := 7, ip := 170524677, hardwareAddr := "02:bb:bb:bb:bb:bb",
             state := nudStale, typ := 0 }]) = []) := by decide

/-- C7 amended: a second reconciliation immediately after a successful one,
on inputs unchanged except for the first step's own repairs, issues no
kernel mutation — unconditionally for the conntrack and veth watchers, and
for the ARP watcher provided every expected metadata MAC string is in
canonical form (parses back to itself); a non-canonical MAC makes the ARP
step re-issue its upsert forever (see the counterexample). -/
theorem c7_idempotence_amended :
    (∀ (ctx : ArpCtx) (entries : List NeighEntry), macsCanonical ctx →
      arpDoSyncEntries ctx (applyNeighSets (arpDoSyncEntries ctx entries) entries) = []) ∧
    (∀ (cmap : List (String × Container)) (entries : List CTEntry),
      ctDoSync cmap (applyCtDeletes (ctDoSync cmap entries) entries) = []) ∧
    (∀ (vethPfx : String) (networks : List Network) (links : List Link)
        (cview : List String),
      vethDoSync vethPfx networks
        (applyLinkDeletes (vethDoSync vethPfx networks links cview) links) cview = []) :=
  ⟨arp_step_idem, ct_step_idem, veth_step_idem⟩

/-- C7 witness: the three second passes at the spec's concrete scenarios
(canonical MACs for ARP) issue nothing. -/
theorem c7_witness :
    arpDoSyncEntries
      { hostUUID := "h1", driverMac := "02:dd:dd:dd:dd:dd", bridgeIndex := 7,
        subnet := { base := 170524672, maskBits := 16 },
        cmap := [("10.42.0.5",
          { hostUUID := "h1", networkUUID := "n1", primaryIp := "10.42.0.5",
            primaryMacAddress := "02:aa:aa:aa:aa:05", ports := [] })] }
      (applyNeighSets
        (arpDoSyncEntries
          { hostUUID := "h1", driverMac := "02:dd:dd:dd:dd:dd", bridgeIndex := 7,
            subnet := { base := 170524672, maskBits := 16 },
            cmap := [("10.42.0.5",
              { hostUUID := "h1", networkUUID := "n1", primaryIp := "10.42.0.5",
                primaryMacAddress := "02:aa:aa:aa:aa:05", ports := [] })] }
          [{ linkIndex := 7, ip := 170524677, hardwareAddr := "02:bb:bb:bb:bb:bb",
             state := nudStale, typ := 0 }])
        [{ linkIndex := 7, ip := 170524677, hardwareAddr := "02:bb:bb:bb:bb:bb",
           state := nudStale, typ := 0 }]) = [] ∧
    ctDoSync
      [("0.0.0.0:8080/tcp",
        { hostUUID := "h1", networkUUID := "n1", primaryIp := "10.42.0.5",
          primaryMacAddress := "", ports := ["0.0.0.0:8080:80/tcp"] })]
      (applyCtDeletes
        (ctDoSync
          [("0.0.0.0:8080/tcp",
            { hostUUID := "h1", networkUUID := "n1", primaryIp := "10.42.0.5",
              primaryMacAddress := "", ports := ["0.0.0.0:8080:80/tcp"] })]
          [{ originalDestinationIP := "10.0.0.1", originalDestinationPort := "8080",
             protocol := "tcp", replySourceIP := "10.42.0.9" }])
        [{ originalDestinationIP := "10.0.0.1", originalDestinationPort := "8080",
           protocol := "tcp", replySourceIP := "10.42.0.9" }]) = [] ∧
    vethDoSync "vethr"
      [{ uuid := "n1",
         metadata := [("cniConfig",
           JVal.obj [("10-br", JVal.obj [("bridge", JVal.str "docker0")])])] }]
      (applyLinkDeletes
        (vethDoSync "vethr"
          [{ uuid := "n1",
             metadata := [("cniConfig",
               JVal.obj [("10-br", JVal.obj [("bridge", JVal.str "docker0")])])] }]
          [{ index := 2, name := "docker0", masterIndex := 0, parentIndex := 0 },
           { index := 42, name := "vethr1", masterIndex := 2, parentIndex := 0 },
           { index := 43, name := "vethr2", masterIndex := 2, parentIndex := 0 }]
          ["42"])
        [{ index := 2, name := "docker0", masterIndex := 0, parentIndex := 0 },
         { index := 42, name := "vethr1", masterIndex := 2, parentIndex := 0 },
         { index := 43, name := "vethr2", masterIndex := 2, parentIndex := 0 }])
      ["42"] = [] :=
  ⟨c7_idempotence_amended.1
      { hostUUID := "h1", driverMac := "02:dd:dd:dd:dd:dd", bridgeIndex := 7,
        subnet := { base := 170524672, maskBits := 16 },
        cmap := [("10.42.0.5",
          { hostUUID := "h1", networkUUID := "n1", primaryIp := "10.42.0.5",
            primaryMacAddress := "02:aa:aa:aa:aa:05", ports := [] })] }
      [{ linkIndex := 7, ip := 170524677, hardwareAddr := "02:bb:bb:bb:bb:bb",
         state := nudStale, typ := 0 }]
      ⟨by decide, by decide⟩,
   c7_idempotence_amended.2.1 _ _,
   c7_idempotence_amended.2.2 _ _ _ _⟩

/-- C8: every watcher interval is chosen with the same rule: the
`strconv.Atoi` value when the string parses, otherwise the per-watcher
default — 120 seconds for `arpsync` and `conntracksync`, and
`vethsync.DefaultSyncInterval` for the veth watcher; empty and non-numeric
strings fall back, "30" yields 30 seconds. -/
theorem c8_interval_fallback :
    (∀ s, goAtoi s = none →
      arpsyncWatchIntervalSeconds s = 120 ∧ conntracksyncWatchIntervalSeconds s = 120 ∧
        ∀ d, vethsyncWatchIntervalSeconds d s = d) ∧
    (∀ s i, goAtoi s = some i →
      arpsyncWatchIntervalSeconds s = i ∧ conntracksyncWatchIntervalSeconds s = i ∧
        ∀ d, vethsyncWatchIntervalSeconds d s = i) ∧
    goAtoi "" = none ∧ goAtoi "abc" = none ∧ goAtoi "30" = some 30 := by
  refine ⟨?_, ?_, by decide, by decide, by decide⟩
  · intro s h
    simp [arpsyncWatchIntervalSeconds, conntracksyncWatchIntervalSeconds,
      vethsyncWatchIntervalSeconds, h, arpsyncDefaultSyncInterval,
      conntracksyncDefaultSyncInterval]
  · intro s i h
    simp [arpsyncWatchIntervalSeconds, conntracksyncWatchIntervalSeconds,
      vethsyncWatchIntervalSeconds, h]

/-- C8 witness: "abc" and "" fall back to 120 seconds, "30" yields 30. -/
theorem c8_witness :
    arpsyncWatchIntervalSeconds "abc" = 120 ∧ conntracksyncWatchIntervalSeconds "" = 120 ∧
      conntracksyncWatchIntervalSeconds "30" = 30 :=
  ⟨(c8_interval_fallback.1 "abc" (by decide)).1,
   (c8_interval_fallback.1 "" (by decide)).2.1,
   (c8_interval_fallback.2.1 "30" 30 (by decide)).2.1⟩

/-- C9: the conntrack map construction panics (index out of range) on a
port string with three colon-separated fields whose third field has no "/",
such as "0.0.0.0:8080:80"; it is total whenever every three-field port's
third field contains a "/". -/
theorem c9_port_split_partiality :
    buildContainersMaps "h1"
        [{ hostUUID := "h1", networkUUID := "n1", primaryIp := "10.42.0.5",
           primaryMacAddress := "", ports := ["0.0.0.0:8080:80"] }] =
      Except.error GoPanic.indexOutOfRange ∧
    (∀ (hostUUID : String) (containers : List Container),
      (∀ c ∈ containers, ∀ p ∈ c.ports, ∀ a b t,
        goSplit ':' p = [a, b, t] → 2 ≤ (goSplit '/' t).length) →
      ∃ m, buildContainersMaps hostUUID containers = Except.ok m) := by
  constructor
  · rfl
  · intro hostUUID containers hp
    exact buildContainersMapsAux_ok hp []

/-- C9 witness: with the well-formed port "0.0.0.0:8080:80/tcp" the map
construction succeeds. -/
theorem c9_witness :
    ∃ m, buildContainersMaps "h1"
        [{ hostUUID := "h1", networkUUID := "n1", primaryIp := "10.42.0.5",
           primaryMacAddress := "", ports := ["0.0.0.0:8080:80/tcp"] }] = Except.ok m :=
  c9_port_split_partiality.2 "h1"
    [{ hostUUID := "h1", networkUUID := "n1", primaryIp := "10.42.0.5",
       primaryMacAddress := "", ports := ["0.0.0.0:8080:80/tcp"] }]
    (by
      intro c hc p hp a b t hsplit
      obtain rfl := List.mem_singleton.mp hc
      obtain rfl := List.mem_singleton.mp hp
      have hknown : goSplit ':' "0.0.0.0:8080:80/tcp" = ["0.0.0.0", "8080", "80/tcp"] := by
        decide
      rw [hknown] at hsplit
      injection hsplit with h1 hsplit
      injection hsplit with h2 hsplit
      injection hsplit with h3 _
      subst h3
      decide)

/-- C10: a parsing interval string is accepted verbatim by every watcher
with no range validation: "0" gives a zero interval and "-5" a negative
one; the default applies only on parse failure. -/
theorem c10_interval_no_validation :
    (∀ s i, goAtoi s = some i →
      arpsyncWatchIntervalSeconds s = i ∧ conntracksyncWatchIntervalSeconds s = i ∧
        ∀ d, vethsyncWatchIntervalSeconds d s = i) ∧
    goAtoi "0" = some 0 ∧ goAtoi "-5" = some (-5) ∧
    arpsyncWatchIntervalSeconds "-5" = -5 ∧ conntracksyncWatchIntervalSeconds "0" = 0 ∧
    vethsyncWatchIntervalSeconds 60 "-5" = -5 := by
  refine ⟨?_, by decide, by decide, by decide, by decide, by decide⟩
  intro s i h
  simp [arpsyncWatchIntervalSeconds, conntracksyncWatchIntervalSeconds,
    vethsyncWatchIntervalSeconds, h]

/-- C10 witness: the negative interval "-5" is adopted verbatim by all
three watchers. -/
theorem c10_witness :
    arpsyncWatchIntervalSeconds "-5" = -5 ∧ conntracksyncWatchIntervalSeconds "-5" = -5 ∧
      vethsyncWatchIntervalSeconds 60 "-5" = -5 :=
  ⟨(c10_interval_no_validation.1 "-5" (-5) (by decide)).1,
   (c10_interval_no_validation.1 "-5" (-5) (by decide)).2.1,
   (c10_interval_no_validation.1 "-5" (-5) (by decide)).2.2 60⟩

end PluginManager
